import Mathlib

/-!
Verification of the Network-Traffic-Anomaly-Detection prediction pipeline.

Shallow embedding of `backend/preprocessing.py`, `backend/model_utils.py`
and the serving layer of `backend/main.py`.  Python float values are
modelled by `FVal`: a finite value is an exact rational, and the special
floats NaN, +inf, -inf, together with non-convertible (non-numeric)
values, are explicit constructors.  A Python `dict` of features is an
association list with unique keys; `List.lookup` gives dict access.
-/

/-- A value appearing in a feature dictionary, as Python's validation code
sees it: a finite numeric value (after a successful `float(value)`
conversion), NaN, positive or negative infinity, or a value that cannot be
converted to a float at all. -/
inductive FVal where
  | fin (q : ℚ)
  | nan
  | posinf
  | neginf
  | nonnum
  deriving DecidableEq, Repr

/-- A `FeatureVector`: mapping from feature name to value
(`Dict[str, float]` in the source). -/
abbrev FeatureVector := List (String × FVal)

/-- Error kinds raised by `validate_features` (both are `ValueError` in
`preprocessing.py`; the spec distinguishes them as `MissingFeatureError`
and `InvalidValueError`). -/
inductive ValidationError where
  | missingFeature (names : List String)
  | invalidValue (name : String) (value : FVal)
  deriving DecidableEq, Repr

/-- A value fails the numeric check of `preprocessing.py` lines 23-31:
it is non-numeric (the `float(value)` conversion fails), NaN, or
infinite. -/
def isBadValue : FVal → Bool
  | .fin _ => false
  | .nan => true
  | .posinf => true
  | .neginf => true
  | .nonnum => true

/-- The `for name, value in features.items()` loop of
`validate_features`: returns the first (name, value) pair whose value is
non-numeric, NaN or infinite, if any. -/
def findBadValue : List (String × FVal) → Option (String × FVal)
  | [] => none
  | (n, v) :: rest => if isBadValue v then some (n, v) else findBadValue rest

/-- `validate_features(features, required_features)` of
`preprocessing.py` lines 7-31: first computes
`set(required_features) - set(features.keys())` and raises the
missing-features error if nonempty; only then scans every item of
`features` (all keys, not only required ones) for a non-numeric, NaN or
infinite value. -/
def validate_features (features : FeatureVector) (required : List String) :
    Except ValidationError Unit :=
  let missing := (required.filter (fun n => (features.lookup n).isNone)).dedup
  if missing.isEmpty then
    match findBadValue features with
    | some (n, v) => .error (.invalidValue n v)
    | none => .ok ()
  else
    .error (.missingFeature missing)

/-- `np.nan_to_num(·, nan=0.0, posinf=0.0, neginf=0.0)` applied to one
entry (`preprocessing.py` line 54): finite values pass through, NaN and
both infinities are clamped to 0.  (`nonnum` cannot reach this point:
validation rejects it.) -/
def nanToNum : FVal → ℚ
  | .fin q => q
  | _ => 0

/-- `preprocess_input(features, required_features)` of `preprocessing.py`
lines 33-56: validate, then build `[features[name] for name in
required_features]` (after validation every required name is present, so
the `getD` default is never used), then clamp NaN/inf entries to 0. -/
def preprocess_input (features : FeatureVector) (required : List String) :
    Except ValidationError (List ℚ) := do
  validate_features features required
  let ordered := required.map (fun n => (features.lookup n).getD FVal.nan)
  return ordered.map nanToNum

-- ### Model layer (`backend/model_utils.py`)

/-- A fitted scaler artifact (`scaler.pkl`): an opaque, pure transform on
feature vectors (`StandardScaler.transform`). -/
structure Scaler where
  transform : List ℚ → List ℚ

/-- A fitted classifier artifact (`logistic_regression.pkl` or
`knn.pkl`): opaque `predict` returning the label, and, when the object
has a `predict_proba` attribute, a probability-of-class-1 function
(`predict_proba(x)[0][1]` in the source). `none` models
`hasattr(model, "predict_proba") == False`. -/
structure Classifier where
  predict : List ℚ → ℤ
  predict_proba : Option (List ℚ → ℚ)

/-- The `model_metadata.json` document, reduced to the field the serving
code reads (`feature_names`). -/
structure Metadata where
  feature_names : List String

/-- `ModelPredictor` state (`model_utils.py` lines 13-19): every artifact
slot starts as `None` and is filled by `load`. -/
structure ModelPredictor where
  scaler : Option Scaler
  logistic_regression : Option Classifier
  knn : Option Classifier
  feature_names : List String
  metadata : Option Metadata

/-- `ModelPredictor.__init__`: all artifact slots `None`, empty feature
names, empty metadata. -/
def ModelPredictor.init : ModelPredictor :=
  ⟨none, none, none, [], none⟩

/-- A model directory on disk: each of the four artifact files
(`scaler.pkl`, `logistic_regression.pkl`, `knn.pkl`,
`model_metadata.json`) is present (`some`) or absent (`none`). -/
structure ModelDir where
  scaler : Option Scaler
  logistic_regression : Option Classifier
  knn : Option Classifier
  metadata : Option Metadata

/-- `ArtifactMissingError{which}` — the `FileNotFoundError`s raised by
`ModelPredictor.load`, tagged with the missing artifact. -/
inductive LoadError where
  | artifactMissing (which : String)
  deriving DecidableEq, Repr

/-- Whether a directory holds the named artifact file. -/
def ModelDir.hasArtifact (d : ModelDir) : String → Bool
  | "scaler" => d.scaler.isSome
  | "logistic_regression" => d.logistic_regression.isSome
  | "knn" => d.knn.isSome
  | "model_metadata" => d.metadata.isSome
  | _ => false

/-- `ModelPredictor.load` (`model_utils.py` lines 21-50) as a state
transformer: it mutates `self` field by field in source order and may
stop with an error, returning the state reached so far.  Source order:
check+load scaler; check `logistic_regression.pkl` exists; check
`knn.pkl` exists; load both; load metadata or fail. -/
def ModelPredictor.load (p : ModelPredictor) (dir : ModelDir) :
    ModelPredictor × Option LoadError :=
  match dir.scaler with
  | none => (p, some (.artifactMissing "scaler"))
  | some s =>
    let p1 := { p with scaler := some s }
    match dir.logistic_regression with
    | none => (p1, some (.artifactMissing "logistic_regression"))
    | some lr =>
      match dir.knn with
      | none => (p1, some (.artifactMissing "knn"))
      | some k =>
        let p2 := { p1 with logistic_regression := some lr, knn := some k }
        match dir.metadata with
        | some md =>
          ({ p2 with metadata := some md, feature_names := md.feature_names },
            none)
        | none => (p2, some (.artifactMissing "model_metadata"))

/-- `load_models` (`model_utils.py` lines 134-151): constructs a fresh
predictor and loads it; an error during `load` propagates, so the caller
receives a predictor only when all four artifacts loaded. -/
def load_models (dir : ModelDir) : Except LoadError ModelPredictor :=
  match ModelPredictor.init.load dir with
  | (p, none) => .ok p
  | (_, some e) => .error e

/-- Errors of `ModelPredictor.predict`: the models-not-loaded guard and
the unknown-model-type `ValueError`. -/
inductive PredictError where
  | notLoaded
  | unknownModel (t : String)
  deriving DecidableEq, Repr

/-- `ModelPredictor.predict` (`model_utils.py` lines 52-89): guard that
all three artifacts are loaded; scale the features; select the model by
`model_type` (raising for an unknown type); predict the label; take
`predict_proba(x)[0][1]` when available, else the fixed
`0.5 if prediction == 1 else 0.5` fallback. -/
def ModelPredictor.predict (p : ModelPredictor) (features : List ℚ)
    (model_type : String) : Except PredictError (ℤ × ℚ) :=
  match p.scaler, p.logistic_regression, p.knn with
  | some scaler, some lr, some knn =>
    let features_scaled := scaler.transform features
    let chosen : Except PredictError Classifier :=
      if model_type = "knn" then .ok knn
      else if model_type = "logistic_regression" then .ok lr
      else .error (.unknownModel model_type)
    match chosen with
    | .error e => .error e
    | .ok model =>
      let prediction := model.predict features_scaled
      let probability :=
        match model.predict_proba with
        | some f => f features_scaled
        | none => if prediction = 1 then (1 : ℚ) / 2 else (1 : ℚ) / 2
      .ok (prediction, probability)
  | _, _, _ => .error .notLoaded

-- ### Serving layer (`backend/main.py`)

/-- Errors surfaced by the serving layer: the pydantic `model_type`
validator rejection (`UnknownModelError`, HTTP 422), a feature-validation
failure (HTTP 400), and a `ModelPredictor.predict` failure. -/
inductive ServiceError where
  | unknownModel (t : String)
  | validation (e : ValidationError)
  | predictFailure (e : PredictError)
  deriving DecidableEq, Repr

/-- `PredictionRequest.validate_model_type` (`main.py` lines 72-76): a
pydantic validator that runs when the request is parsed, before the
handler body. -/
def validate_model_type (t : String) : Except ServiceError Unit :=
  if t = "knn" ∨ t = "logistic_regression" then .ok ()
  else .error (.unknownModel t)

/-- The per-record body shared by the single and batch handlers
(`main.py` lines 163-169 and 203-204): `preprocess_input` followed by
`predictor.predict`. -/
def predictRecord (p : ModelPredictor) (model_type : String)
    (features : FeatureVector) : Except ServiceError (ℤ × ℚ) :=
  match preprocess_input features p.feature_names with
  | .error e => .error (ServiceError.validation e)
  | .ok arr =>
    match p.predict arr model_type with
    | .error e => .error (ServiceError.predictFailure e)
    | .ok r => .ok r

/-- `predict_one`: the `/api/predict` request path.  Pydantic validates
`model_type` while parsing the `PredictionRequest` (so an unknown model
type is rejected before any preprocessing, scaling or prediction), then
the handler body preprocesses and predicts. -/
def predict_one (p : ModelPredictor) (features : FeatureVector)
    (model_type : String) : Except ServiceError (ℤ × ℚ) :=
  match validate_model_type model_type with
  | .error e => .error e
  | .ok _ => predictRecord p model_type features

/-- Confidence bucketing of `main.py` lines 171-177, applied by the
`/api/predict` handler to the returned probability. -/
def confidenceBucket (p : ℚ) : String :=
  if p > 8/10 ∨ p < 2/10 then "High"
  else if p > 6/10 ∨ p < 4/10 then "Medium"
  else "Low"

/-- The full `/api/predict` handler result: (label, probability,
confidence bucket). -/
def predictEndpoint (p : ModelPredictor) (features : FeatureVector)
    (model_type : String) : Except ServiceError (ℤ × ℚ × String) :=
  match predict_one p features model_type with
  | .error e => .error e
  | .ok r => .ok (r.1, r.2, confidenceBucket r.2)

/-- The loop of the `/api/predict/batch` handler (`main.py` lines
199-206): each record is preprocessed and predicted independently and the
(label, probability) pairs are collected in input order; the first error
aborts the whole batch.  (`BatchPredictionRequest` has no `model_type`
validator, so the loop calls `predictRecord` directly.) -/
def runBatch (p : ModelPredictor) (model_type : String) :
    List FeatureVector → Except ServiceError (List (ℤ × ℚ))
  | [] => .ok []
  | fd :: rest =>
    match predictRecord p model_type fd with
    | .error e => .error e
    | .ok r =>
      match runBatch p model_type rest with
      | .error e => .error e
      | .ok rs => .ok (r :: rs)

/-- `BatchPredictionResponse` (`main.py` lines 91-98). -/
structure BatchResult where
  predictions : List ℤ
  probabilities : List ℚ
  model_used : String
  total_count : ℕ
  attack_count : ℤ
  normal_count : ℤ
  deriving Repr

/-- `predict_batch`: the `/api/predict/batch` handler (`main.py` lines
192-218). `attack_count = sum(predictions)` and
`normal_count = len(predictions) - attack_count` exactly as in the
source. -/
def predict_batch (p : ModelPredictor) (data : List FeatureVector)
    (model_type : String) : Except ServiceError BatchResult :=
  match runBatch p model_type data with
  | .error e => .error e
  | .ok rs =>
    let predictions := rs.map Prod.fst
    let probabilities := rs.map Prod.snd
    let attack_count : ℤ := predictions.sum
    let normal_count : ℤ := (predictions.length : ℤ) - attack_count
    .ok ⟨predictions, probabilities, model_type, predictions.length,
      attack_count, normal_count⟩

/-- Both classifiers of a predictor only ever emit the labels 0 and 1
(the classifier contract of the spec: label 0 = normal, 1 = attack). -/
def binaryPredictor (p : ModelPredictor) : Prop :=
  (∀ c, p.logistic_regression = some c → ∀ arr, c.predict arr = 0 ∨ c.predict arr = 1) ∧
  (∀ c, p.knn = some c → ∀ arr, c.predict arr = 0 ∨ c.predict arr = 1)

-- ### Concrete inputs and artifacts used by witnesses

def exContract : List String := ["a"]

def exVec : FeatureVector := [("a", FVal.fin 1)]

def exVecExt : FeatureVector := [("a", FVal.fin 1), ("b", FVal.nan)]

def exVecBad : FeatureVector := [("a", FVal.nan)]

def exVecOther : FeatureVector := [("b", FVal.nan)]

def exExtra : FeatureVector := [("b", FVal.fin 2)]

def idScaler : Scaler := ⟨fun l => l⟩

def constClassifier : Classifier := ⟨fun _ => 1, some fun _ => 9/10⟩

def noProbaClassifier : Classifier := ⟨fun _ => 1, none⟩

def dirMissingKnn : ModelDir :=
  ⟨some idScaler, some constClassifier, none, some ⟨["a"]⟩⟩

/-- The predictor used by concrete batch witnesses: identity scaler and a
classifier that always answers label 1 with probability 0.9. -/
def wPredictor : ModelPredictor :=
  ⟨some idScaler, some constClassifier, some constClassifier, ["a"], none⟩

-- ### Lemmas about the validation scan and lookup

theorem lookup_mem {l : List (String × FVal)} {n : String} {v : FVal}
    (h : l.lookup n = some v) : (n, v) ∈ l := by
  induction l with
  | nil => simp [List.lookup] at h
  | cons p rest ih =>
    obtain ⟨m, w⟩ := p
    by_cases hm : n = m
    · subst hm
      simp [List.lookup] at h
      simp [h]
    · have hne : (n == m) = false := beq_eq_false_iff_ne.mpr hm
      simp [List.lookup, hne] at h
      exact List.mem_cons_of_mem _ (ih h)

theorem findBadValue_eq_none {l : List (String × FVal)}
    (h : ∀ p ∈ l, isBadValue p.2 = false) : findBadValue l = none := by
  induction l with
  | nil => rfl
  | cons p rest ih =>
    obtain ⟨n, v⟩ := p
    have hv : isBadValue v = false := h (n, v) (by simp)
    simp [findBadValue, hv]
    exact ih fun q hq => h q (List.mem_cons_of_mem _ hq)

theorem findBadValue_mem {l : List (String × FVal)} {n : String} {v : FVal}
    (h : findBadValue l = some (n, v)) : (n, v) ∈ l ∧ isBadValue v = true := by
  induction l with
  | nil => simp [findBadValue] at h
  | cons p rest ih =>
    obtain ⟨m, w⟩ := p
    by_cases hb : isBadValue w
    · simp [findBadValue, hb] at h
      obtain ⟨h1, h2⟩ := h
      subst h1; subst h2
      exact ⟨by simp, hb⟩
    · simp [findBadValue, hb] at h
      obtain ⟨h1, h2⟩ := ih h
      exact ⟨List.mem_cons_of_mem _ h1, h2⟩

theorem findBadValue_isSome {l : List (String × FVal)} {p : String × FVal}
    (hp : p ∈ l) (hb : isBadValue p.2 = true) : findBadValue l ≠ none := by
  intro hnone
  induction l with
  | nil => simp at hp
  | cons q rest ih =>
    obtain ⟨m, w⟩ := q
    by_cases hw : isBadValue w
    · simp [findBadValue, hw] at hnone
    · simp [findBadValue, hw] at hnone
      rcases List.mem_cons.mp hp with h1 | h1
      · subst h1; simp [hw] at hb
      · exact ih h1 hnone

theorem lookup_append {V E : List (String × FVal)} {n : String}
    (h : (V.lookup n).isSome) : (V ++ E).lookup n = V.lookup n := by
  induction V with
  | nil => simp [List.lookup] at h
  | cons p rest ih =>
    obtain ⟨m, w⟩ := p
    by_cases hm : n = m
    · subst hm; simp [List.lookup]
    · have hne : (n == m) = false := beq_eq_false_iff_ne.mpr hm
      simp only [List.cons_append, List.lookup, hne] at h ⊢
      exact ih h

/-- When every required name is present, `validate_features` reduces to
the value scan. -/
theorem validate_features_no_missing (features : FeatureVector)
    (contract : List String)
    (hkeys : ∀ n ∈ contract, (features.lookup n).isSome) :
    validate_features features contract =
      (match findBadValue features with
       | some (n, v) => .error (.invalidValue n v)
       | none => .ok ()) := by
  have hfil : contract.filter (fun n => (features.lookup n).isNone) = [] := by
    rw [List.filter_eq_nil_iff]
    intro n hn
    have h := hkeys n hn
    simp only [Option.isNone_iff_eq_none]
    exact Option.isSome_iff_ne_none.mp h
  simp [validate_features, hfil]

/-- When some required name is absent, `validate_features` stops after
the missing-names check, reporting the (deduplicated) set of absent
required names. -/
theorem validate_features_missing (features : FeatureVector)
    (contract : List String) {n : String} (hn : n ∈ contract)
    (hln : features.lookup n = none) :
    validate_features features contract =
      .error (.missingFeature
        ((contract.filter (fun m => (features.lookup m).isNone)).dedup)) := by
  have hmem : n ∈ (contract.filter (fun m => (features.lookup m).isNone)).dedup := by
    rw [List.mem_dedup, List.mem_filter]
    exact ⟨hn, by simp [hln]⟩
  have hne :
      ((contract.filter (fun m => (features.lookup m).isNone)).dedup).isEmpty = false := by
    cases hh : (contract.filter (fun m => (features.lookup m).isNone)).dedup with
    | nil => rw [hh] at hmem; simp at hmem
    | cons a l => simp [List.isEmpty]
  simp [validate_features, hne]

theorem except_bind_ok {ε α β : Type} (a : α) (f : α → Except ε β) :
    (Except.ok a >>= f) = f a := rfl

theorem except_bind_error {ε α β : Type} (e : ε) (f : α → Except ε β) :
    ((Except.error e : Except ε α) >>= f) = Except.error e := rfl

-- ### Claim theorems

/-- C1: the confidence bucket assigned by the `/api/predict` handler to a
returned probability `p` is "High" if `p > 0.8` or `p < 0.2`, otherwise
"Medium" if `p > 0.6` or `p < 0.4`, otherwise "Low"; in particular 0.9
buckets to "High", 0.5 to "Low", 0.65 to "Medium", 0.1 to "High" and
0.35 to "Medium". -/
theorem confidence_bucketing_spec :
    (∀ (p : ModelPredictor) (fv : FeatureVector) (t : String) (l : ℤ)
        (pr : ℚ) (c : String),
      predictEndpoint p fv t = .ok (l, pr, c) → c = confidenceBucket pr) ∧
    (∀ pr : ℚ, (pr > 8/10 ∨ pr < 2/10) → confidenceBucket pr = "High") ∧
    (∀ pr : ℚ, ¬(pr > 8/10 ∨ pr < 2/10) → (pr > 6/10 ∨ pr < 4/10) →
      confidenceBucket pr = "Medium") ∧
    (∀ pr : ℚ, ¬(pr > 8/10 ∨ pr < 2/10) → ¬(pr > 6/10 ∨ pr < 4/10) →
      confidenceBucket pr = "Low") ∧
    confidenceBucket (9/10) = "High" ∧ confidenceBucket (5/10) = "Low" ∧
    confidenceBucket (65/100) = "Medium" ∧ confidenceBucket (1/10) = "High" ∧
    confidenceBucket (35/100) = "Medium" := by
  refine ⟨?_, ?_, ?_, ?_, ?_, ?_, ?_, ?_, ?_⟩
  · intro p fv t l pr c h
    unfold predictEndpoint at h
    cases hr : predict_one p fv t with
    | error e =>
      rw [hr] at h
      simp at h
    | ok r =>
      rw [hr] at h
      simp only [Except.ok.injEq, Prod.mk.injEq] at h
      obtain ⟨_, h2, h3⟩ := h
      rw [← h3, ← h2]
  · intro pr h; unfold confidenceBucket; rw [if_pos h]
  · intro pr h1 h2; unfold confidenceBucket; rw [if_neg h1, if_pos h2]
  · intro pr h1 h2; unfold confidenceBucket; rw [if_neg h1, if_neg h2]
  · norm_num [confidenceBucket]
  · norm_num [confidenceBucket]
  · norm_num [confidenceBucket]
  · norm_num [confidenceBucket]
  · norm_num [confidenceBucket]

theorem confidence_bucketing_spec_witness :
    confidenceBucket (9/10) = "High" :=
  confidence_bucketing_spec.2.1 (9/10) (by norm_num)

/-- C2: for a FeatureVector whose key set is exactly the contract's
names, with all values finite numerics, validation succeeds and
`preprocess_input` returns an ordered sequence of length
`contract.length` whose entry at each position is the input value for
the contract name at that position; the defensive `nan_to_num` step maps
NaN and both infinities to 0 instead of propagating them. -/
theorem preprocess_valid_input_spec (features : FeatureVector)
    (contract : List String)
    (hkeys : ∀ n, (features.lookup n).isSome ↔ n ∈ contract)
    (hfin : ∀ p ∈ features, ∃ q, p.2 = FVal.fin q) :
    validate_features features contract = .ok () ∧
    (∃ l, preprocess_input features contract = .ok l ∧
      l.length = contract.length ∧
      ∀ i (h1 : i < contract.length) (h2 : i < l.length),
        features.lookup (contract.get ⟨i, h1⟩) =
          some (.fin (l.get ⟨i, h2⟩))) ∧
    nanToNum .nan = 0 ∧ nanToNum .posinf = 0 ∧ nanToNum .neginf = 0 := by
  have hgood : ∀ p ∈ features, isBadValue p.2 = false := by
    intro p hp
    obtain ⟨q, hq⟩ := hfin p hp
    rw [hq]; rfl
  have hval : validate_features features contract = .ok () := by
    rw [validate_features_no_missing features contract
      (fun n hn => (hkeys n).mpr hn)]
    rw [findBadValue_eq_none hgood]
  refine ⟨hval,
    ⟨(contract.map (fun n => (features.lookup n).getD FVal.nan)).map nanToNum,
      ?_, by simp, ?_⟩, rfl, rfl, rfl⟩
  · unfold preprocess_input
    simp only [hval, except_bind_ok]
    rfl
  · intro i h1 h2
    have hn : contract.get ⟨i, h1⟩ ∈ contract := List.get_mem contract i h1
    obtain ⟨v, hv⟩ := Option.isSome_iff_exists.mp ((hkeys _).mpr hn)
    obtain ⟨q, hq0⟩ := hfin (contract.get ⟨i, h1⟩, v) (lookup_mem hv)
    have hq : v = FVal.fin q := hq0
    have hv2 : features.lookup contract[i] = some v := hv
    have hl :
        ((contract.map (fun n => (features.lookup n).getD FVal.nan)).map
          nanToNum).get ⟨i, h2⟩ = q := by
      simp only [List.get_eq_getElem, List.getElem_map]
      rw [hv2, hq]
      rfl
    rw [hl, hv, hq]

theorem preprocess_valid_input_spec_witness :
    validate_features exVec exContract = .ok () ∧
    (∃ l, preprocess_input exVec exContract = .ok l ∧
      l.length = exContract.length ∧
      ∀ i (h1 : i < exContract.length) (h2 : i < l.length),
        exVec.lookup (exContract.get ⟨i, h1⟩) =
          some (.fin (l.get ⟨i, h2⟩))) ∧
    nanToNum .nan = 0 ∧ nanToNum .posinf = 0 ∧ nanToNum .neginf = 0 :=
  preprocess_valid_input_spec exVec exContract
    (by
      intro n
      by_cases h : n = "a"
      · subst h; simp [exVec, exContract, List.lookup]
      · have hne : (n == "a") = false := beq_eq_false_iff_ne.mpr h
        simp [exVec, exContract, List.lookup, hne, h])
    (by
      intro p hp
      simp only [exVec, List.mem_singleton] at hp
      subst hp
      exact ⟨1, rfl⟩)

/-- C3: if the input lacks one or more contract names, validation fails
with the missing-features error, and every absent contract name appears
in the reported list. -/
theorem validate_missing_spec (features : FeatureVector)
    (contract : List String)
    (hmiss : ∃ n ∈ contract, features.lookup n = none) :
    ∃ names,
      validate_features features contract = .error (.missingFeature names) ∧
      ∀ n ∈ contract, features.lookup n = none → n ∈ names := by
  obtain ⟨n, hn, hln⟩ := hmiss
  refine ⟨_, validate_features_missing features contract hn hln, ?_⟩
  intro m hm hlm
  rw [List.mem_dedup, List.mem_filter]
  exact ⟨hm, by simp [hlm]⟩

theorem validate_missing_spec_witness :
    ∃ names,
      validate_features [] exContract = .error (.missingFeature names) ∧
      ∀ n ∈ exContract, List.lookup n ([] : FeatureVector) = none →
        n ∈ names :=
  validate_missing_spec [] exContract ⟨"a", by simp [exContract], rfl⟩

/-- C4: if every contract name is present but some value is non-numeric,
NaN or infinite, validation fails with an invalid-value error carrying an
offending feature's name and value. -/
theorem validate_invalid_value_spec (features : FeatureVector)
    (contract : List String)
    (hkeys : ∀ n ∈ contract, (features.lookup n).isSome)
    (hbad : ∃ p ∈ features, isBadValue p.2 = true) :
    ∃ n v,
      validate_features features contract = .error (.invalidValue n v) ∧
      (n, v) ∈ features ∧ isBadValue v = true := by
  obtain ⟨p0, hp0, hb0⟩ := hbad
  cases hf : findBadValue features with
  | none => exact absurd hf (findBadValue_isSome hp0 hb0)
  | some nv =>
    obtain ⟨n, v⟩ := nv
    obtain ⟨hmem, hbad2⟩ := findBadValue_mem hf
    refine ⟨n, v, ?_, hmem, hbad2⟩
    rw [validate_features_no_missing features contract hkeys, hf]

theorem validate_invalid_value_spec_witness :
    ∃ n v,
      validate_features exVecBad exContract = .error (.invalidValue n v) ∧
      (n, v) ∈ exVecBad ∧ isBadValue v = true :=
  validate_invalid_value_spec exVecBad exContract
    (by
      intro n hn
      simp only [exContract, List.mem_singleton] at hn
      subst hn
      rfl)
    ⟨("a", FVal.nan), by simp [exVecBad], rfl⟩

/-- C5 as stated is false: `validate_features` scans the values of every
key of the input, including keys outside the contract, so an extra key
carrying NaN changes the outcome from success to `InvalidValueError`. -/
theorem extra_keys_counterexample :
    preprocess_input exVec exContract = .ok [1] ∧
    preprocess_input exVecExt exContract =
      .error (.invalidValue "b" FVal.nan) ∧
    preprocess_input exVecExt exContract ≠ preprocess_input exVec exContract := by
  have h1 : preprocess_input exVec exContract = .ok [1] := rfl
  have h2 : preprocess_input exVecExt exContract =
      .error (.invalidValue "b" FVal.nan) := rfl
  refine ⟨h1, h2, ?_⟩
  rw [h1, h2]
  exact fun h => Except.noConfusion h

/-- C5 amended: extra keys whose values are finite numerics are ignored —
for an input satisfying the contract, appending extra pairs whose keys
lie outside the contract and whose values are finite numerics changes
neither the validation outcome nor the ordered sequence. -/
theorem extra_keys_ignored_amended (contract : List String)
    (V E : FeatureVector)
    (hV : ∀ n ∈ contract, (V.lookup n).isSome)
    (hVfin : ∀ p ∈ V, ∃ q, p.2 = FVal.fin q)
    (_hE : ∀ p ∈ E, p.1 ∉ contract)
    (hEfin : ∀ p ∈ E, ∃ q, p.2 = FVal.fin q) :
    validate_features (V ++ E) contract = validate_features V contract ∧
    preprocess_input (V ++ E) contract = preprocess_input V contract ∧
    validate_features V contract = .ok () := by
  have hgoodV : ∀ p ∈ V, isBadValue p.2 = false := by
    intro p hp
    obtain ⟨q, hq⟩ := hVfin p hp
    rw [hq]; rfl
  have hgoodVE : ∀ p ∈ V ++ E, isBadValue p.2 = false := by
    intro p hp
    rcases List.mem_append.mp hp with h | h
    · exact hgoodV p h
    · obtain ⟨q, hq⟩ := hEfin p h
      rw [hq]; rfl
  have hVE : ∀ n ∈ contract, ((V ++ E).lookup n).isSome := by
    intro n hn
    rw [lookup_append (hV n hn)]
    exact hV n hn
  have hvalV : validate_features V contract = .ok () := by
    rw [validate_features_no_missing V contract hV,
      findBadValue_eq_none hgoodV]
  have hvalVE : validate_features (V ++ E) contract = .ok () := by
    rw [validate_features_no_missing (V ++ E) contract hVE,
      findBadValue_eq_none hgoodVE]
  refine ⟨by rw [hvalV, hvalVE], ?_, hvalV⟩
  unfold preprocess_input
  simp only [hvalV, hvalVE, except_bind_ok]
  have hmap : contract.map (fun n => ((V ++ E).lookup n).getD FVal.nan) =
      contract.map (fun n => (V.lookup n).getD FVal.nan) :=
    List.map_congr_left fun n hn => by rw [lookup_append (hV n hn)]
  rw [hmap]

theorem extra_keys_ignored_amended_witness :
    validate_features (exVec ++ exExtra) exContract =
      validate_features exVec exContract ∧
    preprocess_input (exVec ++ exExtra) exContract =
      preprocess_input exVec exContract ∧
    validate_features exVec exContract = .ok () :=
  extra_keys_ignored_amended exContract exVec exExtra
    (by
      intro n hn
      simp only [exContract, List.mem_singleton] at hn
      subst hn
      rfl)
    (by
      intro p hp
      simp only [exVec, List.mem_singleton] at hp
      subst hp
      exact ⟨1, rfl⟩)
    (by
      intro p hp
      simp only [exExtra, List.mem_singleton] at hp
      subst hp
      simp [exContract])
    (by
      intro p hp
      simp only [exExtra, List.mem_singleton] at hp
      subst hp
      exact ⟨2, rfl⟩)

/-- C10: the missing-names check runs before any value is inspected —
an input that both lacks a contract name and contains an invalid value
gets the missing-features error, not the invalid-value error. -/
theorem missing_before_invalid_precedence (features : FeatureVector)
    (contract : List String)
    (hmiss : ∃ n ∈ contract, features.lookup n = none)
    (_hbad : ∃ p ∈ features, isBadValue p.2 = true) :
    ∃ names,
      validate_features features contract = .error (.missingFeature names) := by
  obtain ⟨n, hn, hln⟩ := hmiss
  exact ⟨_, validate_features_missing features contract hn hln⟩

theorem missing_before_invalid_precedence_witness :
    ∃ names,
      validate_features exVecOther exContract =
        .error (.missingFeature names) :=
  missing_before_invalid_precedence exVecOther exContract
    ⟨"a", by simp [exContract], rfl⟩
    ⟨("b", FVal.nan), by simp [exVecOther], rfl⟩

/-- C6: an unknown `model_type` is rejected by the request validator
before the handler body runs, so the result is the unknown-model error
for every predictor state and every input — in particular the outcome
does not depend on the scaler or on either classifier, which shows that
neither the scaler's transform nor any classifier's predict can influence
(or be needed for) the response. -/
theorem unknown_model_rejected (p : ModelPredictor)
    (features : FeatureVector) (t : String)
    (ht : t ≠ "knn" ∧ t ≠ "logistic_regression") :
    predict_one p features t = .error (.unknownModel t) ∧
    predictEndpoint p features t = .error (.unknownModel t) := by
  have hcond : ¬(t = "knn" ∨ t = "logistic_regression") := by
    rintro (h | h)
    · exact ht.1 h
    · exact ht.2 h
  have h1 : predict_one p features t = .error (.unknownModel t) := by
    unfold predict_one validate_model_type
    rw [if_neg hcond]
  refine ⟨h1, ?_⟩
  unfold predictEndpoint
  rw [h1]

theorem unknown_model_rejected_witness :
    predict_one ModelPredictor.init exVec "unknown" =
      .error (.unknownModel "unknown") ∧
    predictEndpoint ModelPredictor.init exVec "unknown" =
      .error (.unknownModel "unknown") :=
  unknown_model_rejected ModelPredictor.init exVec "unknown"
    ⟨by decide, by decide⟩

/-- C8: loading a directory in which any of the four artifact files is
absent fails with an artifact-missing error naming an absent artifact,
and the caller of `load_models` receives no registry; in the concrete
missing-knn scenario the error names "knn" and even the partially
mutated predictor object refuses to predict (models-not-loaded guard),
so no partially loaded registry is usable. -/
theorem load_missing_artifact_spec (dir : ModelDir)
    (hmiss : dir.scaler = none ∨ dir.logistic_regression = none ∨
      dir.knn = none ∨ dir.metadata = none) :
    (∃ w, load_models dir = .error (.artifactMissing w) ∧
      dir.hasArtifact w = false) ∧
    (dir.scaler.isSome → dir.logistic_regression.isSome → dir.knn = none →
      (ModelPredictor.init.load dir).2 = some (.artifactMissing "knn") ∧
      ∀ arr t, ((ModelPredictor.init.load dir).1).predict arr t =
        .error .notLoaded) := by
  obtain ⟨s, lr, k, m⟩ := dir
  cases s with
  | none =>
    refine ⟨⟨"scaler", ?_, rfl⟩, ?_⟩
    · simp [load_models, ModelPredictor.load]
    · intro h; simp at h
  | some s0 =>
    cases lr with
    | none =>
      refine ⟨⟨"logistic_regression", ?_, rfl⟩, ?_⟩
      · simp [load_models, ModelPredictor.load]
      · intro _ h; simp at h
    | some lr0 =>
      cases k with
      | none =>
        refine ⟨⟨"knn", ?_, rfl⟩, ?_⟩
        · simp [load_models, ModelPredictor.load]
        · intro _ _ _
          refine ⟨by simp [ModelPredictor.load], ?_⟩
          intro arr t
          simp [ModelPredictor.load, ModelPredictor.init,
            ModelPredictor.predict]
      | some k0 =>
        cases m with
        | none =>
          refine ⟨⟨"model_metadata", ?_, rfl⟩, ?_⟩
          · simp [load_models, ModelPredictor.load]
          · intro _ _ h; simp at h
        | some m0 =>
          exfalso
          rcases hmiss with h | h | h | h <;> simp at h

theorem load_missing_artifact_spec_witness :
    (∃ w, load_models dirMissingKnn = .error (.artifactMissing w) ∧
      dirMissingKnn.hasArtifact w = false) ∧
    (dirMissingKnn.scaler.isSome → dirMissingKnn.logistic_regression.isSome →
      dirMissingKnn.knn = none →
      (ModelPredictor.init.load dirMissingKnn).2 =
        some (.artifactMissing "knn") ∧
      ∀ arr t, ((ModelPredictor.init.load dirMissingKnn).1).predict arr t =
        .error .notLoaded) :=
  load_missing_artifact_spec dirMissingKnn
    (Or.inr (Or.inr (Or.inl rfl)))

/-- Reduction of `ModelPredictor.predict` on a fully loaded predictor
with `model_type = "knn"`. -/
theorem predict_knn_eq (scaler : Scaler) (lr knn : Classifier)
    (fnames : List String) (md : Option Metadata) (arr : List ℚ) :
    ModelPredictor.predict ⟨some scaler, some lr, some knn, fnames, md⟩
      arr "knn" =
      .ok (knn.predict (scaler.transform arr),
        match knn.predict_proba with
        | some f => f (scaler.transform arr)
        | none =>
          if knn.predict (scaler.transform arr) = 1 then (1 : ℚ)/2
          else (1 : ℚ)/2) := rfl

/-- Reduction of `ModelPredictor.predict` on a fully loaded predictor
with `model_type = "logistic_regression"`. -/
theorem predict_lr_eq (scaler : Scaler) (lr knn : Classifier)
    (fnames : List String) (md : Option Metadata) (arr : List ℚ) :
    ModelPredictor.predict ⟨some scaler, some lr, some knn, fnames, md⟩
      arr "logistic_regression" =
      .ok (lr.predict (scaler.transform arr),
        match lr.predict_proba with
        | some f => f (scaler.transform arr)
        | none =>
          if lr.predict (scaler.transform arr) = 1 then (1 : ℚ)/2
          else (1 : ℚ)/2) := rfl

/-- C9: when the selected classifier has no `predict_proba`, the returned
probability is the fixed 0.5, whatever label the classifier predicts
(the `0.5 if prediction == 1 else 0.5` fallback). -/
theorem no_proba_fallback_half (scaler : Scaler) (lr knn : Classifier)
    (fnames : List String) (md : Option Metadata) (arr : List ℚ) :
    (knn.predict_proba = none →
      ModelPredictor.predict ⟨some scaler, some lr, some knn, fnames, md⟩
        arr "knn" = .ok (knn.predict (scaler.transform arr), 1/2)) ∧
    (lr.predict_proba = none →
      ModelPredictor.predict ⟨some scaler, some lr, some knn, fnames, md⟩
        arr "logistic_regression" =
        .ok (lr.predict (scaler.transform arr), 1/2)) := by
  constructor
  · intro hp
    rw [predict_knn_eq, hp]
    by_cases hpred : knn.predict (scaler.transform arr) = 1 <;> simp [hpred]
  · intro hp
    rw [predict_lr_eq, hp]
    by_cases hpred : lr.predict (scaler.transform arr) = 1 <;> simp [hpred]

theorem no_proba_fallback_half_witness :
    ModelPredictor.predict
      ⟨some idScaler, some constClassifier, some noProbaClassifier, [], none⟩
      [] "knn" = .ok (1, 1/2) := by
  have h := (no_proba_fallback_half idScaler constClassifier
    noProbaClassifier [] none []).1 rfl
  simpa [noProbaClassifier, idScaler] using h
/-- For a valid model type the pydantic validator passes, so the
`/api/predict` path equals the shared per-record body. -/
theorem predict_one_eq_predictRecord (p : ModelPredictor)
    (features : FeatureVector) {t : String}
    (ht : t = "knn" ∨ t = "logistic_regression") :
    predict_one p features t = predictRecord p t features := by
  unfold predict_one validate_model_type
  rw [if_pos ht]

/-- A successful batch run pairs every input record with its own
per-record result, in order. -/
theorem runBatch_forall2 {p : ModelPredictor} {t : String}
    {data : List FeatureVector} {rs : List (ℤ × ℚ)}
    (h : runBatch p t data = .ok rs) :
    List.Forall₂ (fun fd r => predictRecord p t fd = .ok r) data rs := by
  induction data generalizing rs with
  | nil =>
    simp only [runBatch, Except.ok.injEq] at h
    subst h
    exact List.Forall₂.nil
  | cons fd rest ih =>
    unfold runBatch at h
    cases hr : predictRecord p t fd with
    | error e => rw [hr] at h; simp at h
    | ok r =>
      rw [hr] at h
      cases hrs : runBatch p t rest with
      | error e => rw [hrs] at h; simp at h
      | ok rs0 =>
        rw [hrs] at h
        simp only [Except.ok.injEq] at h
        subst h
        exact List.Forall₂.cons hr (ih hrs)

/-- Labels returned by `ModelPredictor.predict` of a binary predictor
under a valid model type are 0 or 1. -/
theorem predict_label_binary {p : ModelPredictor} {t : String}
    {arr : List ℚ} {l : ℤ} {pr : ℚ}
    (hbin : binaryPredictor p) (ht : t = "knn" ∨ t = "logistic_regression")
    (h : p.predict arr t = .ok (l, pr)) : l = 0 ∨ l = 1 := by
  obtain ⟨s, lr, k, fn, md⟩ := p
  cases s with
  | none => simp [ModelPredictor.predict] at h
  | some s0 =>
    cases lr with
    | none => simp [ModelPredictor.predict] at h
    | some lr0 =>
      cases k with
      | none => simp [ModelPredictor.predict] at h
      | some k0 =>
        rcases ht with ht | ht <;> subst ht
        · rw [predict_knn_eq] at h
          simp only [Except.ok.injEq, Prod.mk.injEq] at h
          obtain ⟨h1, _⟩ := h
          subst h1
          exact hbin.2 k0 rfl _
        · rw [predict_lr_eq] at h
          simp only [Except.ok.injEq, Prod.mk.injEq] at h
          obtain ⟨h1, _⟩ := h
          subst h1
          exact hbin.1 lr0 rfl _

/-- Labels in a successful per-record result of a binary predictor are
0 or 1. -/
theorem predictRecord_label_binary {p : ModelPredictor} {t : String}
    {fd : FeatureVector} {l : ℤ} {pr : ℚ}
    (hbin : binaryPredictor p) (ht : t = "knn" ∨ t = "logistic_regression")
    (h : predictRecord p t fd = .ok (l, pr)) : l = 0 ∨ l = 1 := by
  unfold predictRecord at h
  cases hpre : preprocess_input fd p.feature_names with
  | error e => rw [hpre] at h; simp at h
  | ok arr =>
    rw [hpre] at h
    simp only [] at h
    cases hp2 : ModelPredictor.predict p arr t with
    | error e => rw [hp2] at h; simp at h
    | ok r =>
      rw [hp2] at h
      simp only [Except.ok.injEq] at h
      subst h
      exact predict_label_binary hbin ht hp2

/-- The sum of a 0/1-valued integer list counts its ones. -/
theorem sum_binary_eq_count_ones {ls : List ℤ}
    (h : ∀ l ∈ ls, l = 0 ∨ l = 1) :
    ls.sum = ((ls.filter fun l => l = 1).length : ℤ) := by
  induction ls with
  | nil => simp
  | cons a rest ih =>
    have hrest := ih fun l hl => h l (List.mem_cons_of_mem _ hl)
    rcases h a (by simp) with h0 | h1
    · subst h0
      simp [List.filter_cons, hrest]
    · subst h1
      simp only [List.filter_cons, List.sum_cons, hrest]
      norm_num
      ring

/-- C7: for a valid model type and 0/1-valued classifiers, a successful
batch result pairs each input record, in order, with exactly the result
`predict_one` gives for it; the singleton batch agrees with
`predict_one`; and `attack_count + normal_count = total_count =` the
input length, with `attack_count` counting the records labeled 1. -/
theorem predict_batch_spec (p : ModelPredictor) (data : List FeatureVector)
    (t : String) (ht : t = "knn" ∨ t = "logistic_regression")
    (hbin : binaryPredictor p) :
    (∀ r, predict_batch p data t = .ok r →
      r.total_count = data.length ∧
      r.predictions.length = data.length ∧
      r.probabilities.length = data.length ∧
      (∀ i (h1 : i < data.length) (h2 : i < r.predictions.length)
          (h3 : i < r.probabilities.length),
        predict_one p (data.get ⟨i, h1⟩) t =
          .ok (r.predictions.get ⟨i, h2⟩, r.probabilities.get ⟨i, h3⟩)) ∧
      r.attack_count + r.normal_count = (r.total_count : ℤ) ∧
      r.attack_count = ((r.predictions.filter fun l => l = 1).length : ℤ)) ∧
    (∀ f l pr, predict_one p f t = .ok (l, pr) →
      predict_batch p [f] t = .ok ⟨[l], [pr], t, 1, l, 1 - l⟩) := by
  constructor
  · intro r hr
    unfold predict_batch at hr
    cases hrs : runBatch p t data with
    | error e => rw [hrs] at hr; simp at hr
    | ok rs =>
      rw [hrs] at hr
      simp only [Except.ok.injEq] at hr
      subst hr
      have hf2 := runBatch_forall2 hrs
      have hlen : data.length = rs.length := hf2.length_eq
      refine ⟨by simp [hlen], by simp [hlen], by simp [hlen], ?_, ?_, ?_⟩
      · intro i hi1 hi2 hi3
        have hi' : i < rs.length := by omega
        have hrec := (List.forall₂_iff_get.mp hf2).2 i hi1 hi'
        rw [predict_one_eq_predictRecord p _ ht, hrec]
        simp [List.get_eq_getElem, List.getElem_map]
      · simp only []
        omega
      · simp only []
        apply sum_binary_eq_count_ones
        intro l hl
        obtain ⟨i, hi, hget⟩ := List.mem_iff_getElem.mp hl
        have hi' : i < rs.length := by simpa using hi
        have hrec := (List.forall₂_iff_get.mp hf2).2 i (by omega) hi'
        have hb := predictRecord_label_binary hbin ht (by
          rw [hrec])
        have hgl : (rs.get ⟨i, hi'⟩).1 = l := by
          rw [← hget]
          simp [List.get_eq_getElem, List.getElem_map]
        rw [← hgl]
        exact hb
  · intro f l pr h
    have h' : predictRecord p t f = .ok (l, pr) := by
      rw [← predict_one_eq_predictRecord p f ht]
      exact h
    have hrb : runBatch p t [f] = .ok [(l, pr)] := by
      unfold runBatch
      rw [h']
      rfl
    unfold predict_batch
    rw [hrb]
    simp

theorem predict_batch_spec_witness :
    predict_batch wPredictor [exVec] "knn" =
      .ok ⟨[1], [9/10], "knn", 1, 1, 0⟩ := by
  have hbin : binaryPredictor wPredictor := by
    constructor
    · intro c hc arr
      have hc' : constClassifier = c := Option.some.inj hc
      rw [← hc']
      exact Or.inr rfl
    · intro c hc arr
      have hc' : constClassifier = c := Option.some.inj hc
      rw [← hc']
      exact Or.inr rfl
  have h := (predict_batch_spec wPredictor [exVec] "knn" (Or.inl rfl)
    hbin).2 exVec 1 (9/10) rfl
  simpa using h
